import Mathlib

/-!
Verification of the size-comparison utility, quantization-configuration
construction, and documentation-workflow version derivation of the
`optimum-intel` repository.

The central piece of logic is the notebook function

  def get_model_size(model_folder):
      model_size = 0
      for file in Path(model_folder).iterdir():
          if file.suffix==".xml":
              model_size += file.stat().st_size + file.with_suffix(".bin").stat().st_size
      model_size /= 1000 * 1000
      return model_size

We embed it shallowly: a directory is a finite listing of (file name, byte
size) entries; `stat` on a name looks the name up in the listing and fails
(`none`) when the name is absent; a nonexistent directory is `none` at the
outer level.  Byte sizes are exact naturals, and the final division by
1,000,000 is carried out over `ℚ` (the idealisation of Python's float
division; all concrete values appearing below are exactly representable).

`pathlib.Path.suffix` and `with_suffix` are embedded faithfully, following
CPython's implementation: `suffix` is the part of the name from its last
dot onwards, except that a name whose only dot is leading or trailing has
no suffix; `with_suffix` drops the old suffix (if any) and appends the new
one.
-/

/-- Split a (reversed) character list at its first `'.'`:
`revTakeToDot r = some (a, b)` when `r = a ++ '.' :: b` with `'.' ∉ a`,
and `none` when `r` contains no dot.  Applied to the reverse of a file
name this locates the name's last dot, as CPython's `name.rfind('.')`
does. -/
def revTakeToDot : List Char → Option (List Char × List Char)
  | [] => none
  | c :: cs =>
    if c = '.' then some ([], cs)
    else (revTakeToDot cs).map (fun p => (c :: p.1, p.2))

/-- `pathlib.PurePath.suffix`: the file extension of `name`, from the last
dot onwards; empty when there is no dot, or when the last dot is the first
or the last character (CPython's `0 < i < len(name) - 1` guard). -/
def pySuffix (name : String) : String :=
  match revTakeToDot name.data.reverse with
  | none => ""
  | some (aft, bef) =>
    if aft ≠ [] ∧ bef ≠ [] then String.mk ('.' :: aft.reverse) else ""

/-- `pathlib.PurePath.with_suffix`: replace the suffix of `name` by
`newSuffix` (append `newSuffix` when `name` has no suffix). -/
def pyWithSuffix (name newSuffix : String) : String :=
  match revTakeToDot name.data.reverse with
  | none => name ++ newSuffix
  | some (aft, bef) =>
    if aft ≠ [] ∧ bef ≠ [] then String.mk (bef.reverse ++ newSuffix.data)
    else name ++ newSuffix

/-- A directory entry: a file name together with the file's byte size
(`stat().st_size`). -/
abbrev DirEntry := String × Nat

/-- A directory: its listing of entries.  A real directory never repeats a
name; none of the results below needs that assumption. -/
abbrev Dir := List DirEntry

/-- `Path(name).stat().st_size` relative to directory `d`: the byte size
of the entry named `name`, or `none` (a raised `FileNotFoundError`) when
no such entry exists. -/
def statSize (d : Dir) (name : String) : Option Nat :=
  (d.find? (fun e => e.1 == name)).map (fun e => e.2)

/-- The loop of `get_model_size`: fold over the listing `l` of directory
`d`, and for every entry whose suffix is `".xml"` add its byte size plus
the byte size of the same-named `".bin"` entry.  `none` when some required
`".bin"` entry is missing — the Python loop raises at the first such
entry and the remaining iterations never run, which the short-circuiting
here mirrors. -/
def sumXmlPairs (d : Dir) : List DirEntry → Option Nat
  | [] => some 0
  | e :: rest =>
    if pySuffix e.1 = ".xml" then
      match statSize d (pyWithSuffix e.1 ".bin") with
      | none => none
      | some binSize => (sumXmlPairs d rest).map (fun s => e.2 + binSize + s)
    else
      sumXmlPairs d rest

/-- `get_model_size(model_folder)`: `none` for a nonexistent directory
(`iterdir` raises), otherwise the summed byte count of all
descriptor/payload pairs divided by `1000 * 1000`, propagating a missing
payload as `none`. -/
def get_model_size (dir : Option Dir) : Option ℚ :=
  match dir with
  | none => none
  | some d => (sumXmlPairs d d).map (fun (s : Nat) => (s : ℚ) / (1000 * 1000))

/-- The spec-side total, in bytes: the sum, over every descriptor (.xml)
entry of the directory, of that entry's byte size plus the byte size of
the matching payload (.bin) entry. -/
def xmlPairTotalBytes (d : Dir) : Nat :=
  ((d.filter (fun e => pySuffix e.1 == ".xml")).map
    (fun e => e.2 + (statSize d (pyWithSuffix e.1 ".bin")).getD 0)).sum

/-- The number of matched descriptor/payload pairs of a directory: the
descriptor (.xml) entries whose matching payload (.bin) entry exists. -/
def matchedPairCount (d : Dir) : Nat :=
  (d.filter (fun e =>
    pySuffix e.1 == ".xml" && (statSize d (pyWithSuffix e.1 ".bin")).isSome)).length

/-- Scale the byte size of every file of a directory by `c`. -/
def scaleDir (c : Nat) (d : Dir) : Dir :=
  d.map (fun e => (e.1, c * e.2))

/-- The size-comparison cell: `fp32_model_size / int8_model_size`, the
reported size-reduction factor. -/
def size_decrease (fp32_model_size int8_model_size : ℚ) : ℚ :=
  fp32_model_size / int8_model_size

/-- Rendering a value with Python's `:.2f` format: round to two decimal
places.  (CPython rounds the underlying binary float half-to-even; no
value below sits at a tie, so rounding half-up agrees.) -/
def format2f (q : ℚ) : ℚ :=
  (⌊q * 100 + 1 / 2⌋ : ℚ) / 100

/-!
## Quantization configurations (Step 4a of the notebook)

The notebook constructs configuration values and passes them, uninspected,
to the external `from_pretrained` call.
-/

/-- Modelled from the spec: the classes `OVWeightQuantizationConfig` and
`OVQuantizationConfig` are part of the `optimum.intel` package, whose
implementation is not among the provided sources; per the spec they are
pure in-memory configuration records built from caller-supplied
parameters (bit width and optional grouping size for weight-only
quantization; bit width, dataset identifier and sample count for
calibration-based quantization), with no validation performed by this
repository. -/
inductive OVQuantizationConfigBase where
  | OVWeightQuantizationConfig (bits : Nat) (group_size : Option Nat)
  | OVQuantizationConfig (bits : Nat) (dataset : Option String) (num_samples : Option Nat)
deriving DecidableEq

/-- Modelled from the spec: the class `OVPipelineQuantizationConfig` of
the `optimum.intel` package, whose implementation is not among the
provided sources; per the spec its construction is a pure step storing a
mapping from component name to sub-configuration together with a dataset
identifier and a sample count, and the stored mapping can be inspected
back. -/
structure OVPipelineQuantizationConfig where
  quantization_configs : List (String × OVQuantizationConfigBase)
  dataset : String
  num_samples : Nat
deriving DecidableEq

/-- `dataset, num_samples = "contextual", 50` of the notebook. -/
def dataset : String := "contextual"

/-- `dataset, num_samples = "contextual", 50` of the notebook. -/
def num_samples : Nat := 50

/-- The pipeline configuration `ppl_q` built in the notebook: a distinct
quantization method per named model component. -/
def ppl_q : OVPipelineQuantizationConfig :=
  { quantization_configs :=
      [("lm_model", .OVQuantizationConfig 8 none none),
       ("text_embeddings_model", .OVWeightQuantizationConfig 8 none),
       ("vision_embeddings_model", .OVWeightQuantizationConfig 8 none)],
    dataset := dataset,
    num_samples := num_samples }

/-!
## Documentation-build workflow (`Set environment variables` step)

The workflow step reads the declared version and runs

    if [[ $version == *.dev0 ]]
    then
      echo "VERSION=main" >> $GITHUB_ENV
    else
      echo "VERSION=v$version" >> $GITHUB_ENV
    fi

`[[ $version == *.dev0 ]]` is bash glob matching of the pattern `*.dev0`
against the version string, which we embed with a standard glob matcher
(`*` matches any sequence of characters; every other character matches
itself; the pattern here contains no other metacharacter). -/
def globMatch (p s : List Char) : Bool :=
  match p, s with
  | [], [] => true
  | [], _ :: _ => false
  | x :: ps, [] => if x = '*' then globMatch ps [] else false
  | x :: ps, c :: cs =>
    if x = '*' then globMatch ps (c :: cs) || globMatch (x :: ps) cs
    else (x == c) && globMatch ps cs
termination_by (p.length, s.length)

/-- The `Set environment variables` step of the documentation-build
workflow: the exported `VERSION` value as a function of the declared
version string. -/
def setVersionEnv (version : String) : String :=
  if globMatch "*.dev0".data version.data then "main" else "v" ++ version

/-- Unfolding `get_model_size` on an existing directory whose byte total
is known. -/
theorem get_model_size_eq_of_sum (d : Dir) (n : Nat) (h : sumXmlPairs d d = some n) :
    get_model_size (some d) = some ((n : ℚ) / (1000 * 1000)) := by
  simp [get_model_size, h]

/-- Unfolding `get_model_size` on an existing directory where the loop
fails. -/
theorem get_model_size_eq_none_of_sum (d : Dir) (h : sumXmlPairs d d = none) :
    get_model_size (some d) = none := by
  simp [get_model_size, h]

/-!
## Lemmas about the path-name model
-/

/-- `revTakeToDot` on a list whose first dot is explicit. -/
theorem revTakeToDot_append (a b : List Char) (h : '.' ∉ a) :
    revTakeToDot (a ++ '.' :: b) = some (a, b) := by
  induction a with
  | nil => simp [revTakeToDot]
  | cons c a ih =>
    have hc : ¬ (c = '.') := fun e => h (by simp [e])
    rw [List.cons_append, revTakeToDot, if_neg hc,
      ih (fun m => h (by simp [m]))]
    rfl

/-- Inversion for `revTakeToDot`. -/
theorem revTakeToDot_eq_some (r a b : List Char) (h : revTakeToDot r = some (a, b)) :
    r = a ++ '.' :: b ∧ '.' ∉ a := by
  induction r generalizing a b with
  | nil => exact Option.noConfusion h
  | cons c cs ih =>
    by_cases hc : c = '.'
    · subst hc
      rw [revTakeToDot, if_pos rfl] at h
      obtain ⟨rfl, rfl⟩ := by simpa using h.symm
      simp
    · rw [revTakeToDot, if_neg hc] at h
      cases hr : revTakeToDot cs with
      | none => rw [hr] at h; simp at h
      | some p =>
        rw [hr] at h
        have h' : (c :: p.1, p.2) = (a, b) := Option.some.inj h
        obtain ⟨h1, h2⟩ := ih p.1 p.2 (by rw [hr])
        obtain rfl : c :: p.1 = a := congrArg Prod.fst h'
        obtain rfl : p.2 = b := congrArg Prod.snd h'
        constructor
        · rw [List.cons_append, ← h1]
        · intro hm
          rcases List.mem_cons.mp hm with h | h
          · exact hc h.symm
          · exact h2 h

/-- `pySuffix` on a name of the shape `stem ++ "." ++ tail` where the
trailing part contains no further dot. -/
theorem pySuffix_of_split (stem tail : List Char) (hs : stem ≠ []) (ht : tail ≠ [])
    (hd : '.' ∉ tail) :
    pySuffix (String.mk (stem ++ '.' :: tail)) = String.mk ('.' :: tail) := by
  unfold pySuffix
  have hrev : (String.mk (stem ++ '.' :: tail)).data.reverse
      = tail.reverse ++ '.' :: stem.reverse := by
    simp
  rw [hrev, revTakeToDot_append _ _ (by simpa using hd)]
  have h1 : tail.reverse ≠ [] := by simpa using ht
  have h2 : stem.reverse ≠ [] := by simpa using hs
  simp [h1, h2]

/-- `pyWithSuffix` on a name of the shape `stem ++ "." ++ tail` where the
trailing part contains no further dot. -/
theorem pyWithSuffix_of_split (stem tail : List Char) (hs : stem ≠ []) (ht : tail ≠ [])
    (hd : '.' ∉ tail) (suf : String) :
    pyWithSuffix (String.mk (stem ++ '.' :: tail)) suf = String.mk (stem ++ suf.data) := by
  unfold pyWithSuffix
  have hrev : (String.mk (stem ++ '.' :: tail)).data.reverse
      = tail.reverse ++ '.' :: stem.reverse := by
    simp
  rw [hrev, revTakeToDot_append _ _ (by simpa using hd)]
  have h1 : tail.reverse ≠ [] := by simpa using ht
  have h2 : stem.reverse ≠ [] := by simpa using hs
  simp [h1, h2]

/-- Inversion: a name whose `pySuffix` is `"." ++ tail` splits as
`stem ++ "." ++ tail` with a nonempty stem. -/
theorem pySuffix_inv (name : String) (tail : List Char) (h : pySuffix name = String.mk ('.' :: tail)) :
    ∃ stem, stem ≠ [] ∧ name.data = stem ++ '.' :: tail := by
  unfold pySuffix at h
  cases hr : revTakeToDot name.data.reverse with
  | none =>
    rw [hr] at h
    have h' : ("" : String) = String.mk ('.' :: tail) := h
    exact List.noConfusion (congrArg String.data h')
  | some p =>
    obtain ⟨aft, bef⟩ := p
    rw [hr] at h
    have h' : (if aft ≠ [] ∧ bef ≠ [] then String.mk ('.' :: aft.reverse) else "")
        = String.mk ('.' :: tail) := h
    by_cases hc : aft ≠ [] ∧ bef ≠ []
    · rw [if_pos hc] at h'
      have hdata : ('.' :: aft.reverse) = '.' :: tail := congrArg String.data h'
      have haft : aft.reverse = tail := by
        simpa using hdata
      obtain ⟨hr2, _⟩ := revTakeToDot_eq_some _ _ _ hr
      refine ⟨bef.reverse, by simpa using hc.2, ?_⟩
      have hnd : name.data = (aft ++ '.' :: bef).reverse := by
        rw [← hr2, List.reverse_reverse]
      rw [hnd]
      simp [haft]
    · rw [if_neg hc] at h'
      exact List.noConfusion (congrArg String.data h')

/-- The payload name looked up for a descriptor has suffix `".bin"`. -/
theorem pySuffix_target (y : String) (h : pySuffix y = ".xml") :
    pySuffix (pyWithSuffix y ".bin") = ".bin" := by
  obtain ⟨stem, hs, hdata⟩ := pySuffix_inv y ['x', 'm', 'l'] (by rw [h])
  have hy : y = String.mk (stem ++ '.' :: ['x', 'm', 'l']) := by
    apply String.ext
    simpa using hdata
  rw [hy, pyWithSuffix_of_split stem _ hs (by decide) (by decide)]
  have hbin : String.mk (stem ++ (".bin" : String).data)
      = String.mk (stem ++ '.' :: ['b', 'i', 'n']) := rfl
  rw [hbin, pySuffix_of_split stem _ hs (by decide) (by decide)]

/-- A descriptor name is recovered from its payload name: if the payload
lookup for descriptor `y` targets `f1`, then `y` is `f1` with its suffix
replaced by `".xml"`. -/
theorem pySuffix_target_inv (y f1 : String) (hy : pySuffix y = ".xml")
    (heq : pyWithSuffix y ".bin" = f1) : pyWithSuffix f1 ".xml" = y := by
  obtain ⟨stem, hs, hdata⟩ := pySuffix_inv y ['x', 'm', 'l'] (by rw [hy])
  have hy' : y = String.mk (stem ++ '.' :: ['x', 'm', 'l']) := by
    apply String.ext
    simpa using hdata
  have hf : f1 = String.mk (stem ++ '.' :: ['b', 'i', 'n']) := by
    rw [← heq, hy', pyWithSuffix_of_split stem _ hs (by decide) (by decide)]
  rw [hf, pyWithSuffix_of_split stem _ hs (by decide) (by decide), hy']

/-!
## Lemmas about the directory walk
-/

/-- When every descriptor entry of the listing has its payload in the
directory, the loop succeeds and returns the sum over descriptor entries
of descriptor size plus payload size. -/
theorem sumXmlPairs_eq_total (d : Dir) (l : List DirEntry)
    (h : ∀ e ∈ l, pySuffix e.1 = ".xml" → (statSize d (pyWithSuffix e.1 ".bin")).isSome) :
    sumXmlPairs d l = some (((l.filter (fun e => pySuffix e.1 == ".xml")).map
      (fun e => e.2 + (statSize d (pyWithSuffix e.1 ".bin")).getD 0)).sum) := by
  induction l with
  | nil => simp [sumXmlPairs]
  | cons e rest ih =>
    have hrest := fun e' he' => h e' (List.mem_cons_of_mem _ he')
    by_cases hx : pySuffix e.1 = ".xml"
    · have hsome := h e (List.mem_cons_self e rest) hx
      obtain ⟨n, hn⟩ := Option.isSome_iff_exists.mp hsome
      rw [sumXmlPairs, if_pos hx, hn, ih hrest]
      have hfx : (pySuffix e.1 == ".xml") = true := by
        simp [hx]
      simp [List.filter_cons, hfx, hn]
    · have hfx : ¬ ((pySuffix e.1 == ".xml") = true) := by
        simp [hx]
      rw [sumXmlPairs, if_neg hx, ih hrest]
      simp [List.filter_cons, hfx]

/-- When some descriptor entry of the listing lacks its payload, the loop
fails. -/
theorem sumXmlPairs_eq_none (d : Dir) (l : List DirEntry)
    (h : ∃ e ∈ l, pySuffix e.1 = ".xml" ∧ statSize d (pyWithSuffix e.1 ".bin") = none) :
    sumXmlPairs d l = none := by
  induction l with
  | nil => simp at h
  | cons e rest ih =>
    obtain ⟨e', he', hx', hn'⟩ := h
    rcases List.mem_cons.mp he' with rfl | hmem
    · rw [sumXmlPairs, if_pos hx', hn']
    · by_cases hx : pySuffix e.1 = ".xml"
      · rw [sumXmlPairs, if_pos hx]
        cases hs : statSize d (pyWithSuffix e.1 ".bin") with
        | none => rfl
        | some n => rw [ih ⟨e', hmem, hx', hn'⟩]; rfl
      · rw [sumXmlPairs, if_neg hx]
        exact ih ⟨e', hmem, hx', hn'⟩

/-- A listing without descriptor entries sums to zero bytes. -/
theorem sumXmlPairs_no_xml (d : Dir) (l : List DirEntry)
    (h : ∀ e ∈ l, pySuffix e.1 ≠ ".xml") :
    sumXmlPairs d l = some 0 := by
  induction l with
  | nil => rfl
  | cons e rest ih =>
    rw [sumXmlPairs, if_neg (h e (List.mem_cons_self e rest))]
    exact ih (fun e' he' => h e' (List.mem_cons_of_mem _ he'))

/-- `stat` ignores a prepended entry of a different name. -/
theorem statSize_cons_ne (f : DirEntry) (d : Dir) (name : String) (h : ¬ f.1 = name) :
    statSize (f :: d) name = statSize d name := by
  have hb : (f.1 == name) = false := by
    simp [h]
  simp [statSize, List.find?_cons, hb]

/-- The loop is insensitive to a new directory entry that no descriptor
entry of the listing targets as its payload. -/
theorem sumXmlPairs_cons_env (f : DirEntry) (d : Dir) (l : List DirEntry)
    (h : ∀ e ∈ l, pySuffix e.1 = ".xml" → pyWithSuffix e.1 ".bin" ≠ f.1) :
    sumXmlPairs (f :: d) l = sumXmlPairs d l := by
  induction l with
  | nil => rfl
  | cons e rest ih =>
    have hrest := fun e' he' => h e' (List.mem_cons_of_mem _ he')
    by_cases hx : pySuffix e.1 = ".xml"
    · have hne : ¬ f.1 = pyWithSuffix e.1 ".bin" :=
        fun e' => h e (List.mem_cons_self e rest) hx e'.symm
      rw [sumXmlPairs, if_pos hx, statSize_cons_ne f d _ hne, ih hrest,
        sumXmlPairs, if_pos hx]
    · rw [sumXmlPairs, if_neg hx, ih hrest, sumXmlPairs, if_neg hx]

/-- Inserting a non-descriptor entry that no descriptor of the directory
targets as its payload leaves `get_model_size` unchanged. -/
theorem get_model_size_insert (d : Dir) (f : DirEntry) (hx : pySuffix f.1 ≠ ".xml")
    (h : ∀ e ∈ d, pySuffix e.1 = ".xml" → pyWithSuffix e.1 ".bin" ≠ f.1) :
    get_model_size (some (f :: d)) = get_model_size (some d) := by
  show (sumXmlPairs (f :: d) (f :: d)).map _ = (sumXmlPairs d d).map _
  rw [show sumXmlPairs (f :: d) (f :: d) = sumXmlPairs (f :: d) d from by
      rw [sumXmlPairs, if_neg hx],
    sumXmlPairs_cons_env f d d h]

/-- `stat` in a directory whose file sizes are scaled. -/
theorem statSize_scale (c : Nat) (d : Dir) (name : String) :
    statSize (scaleDir c d) name = (statSize d name).map (fun n => c * n) := by
  induction d with
  | nil => rfl
  | cons e rest ih =>
    by_cases hb : (e.1 == name) = true
    · simp [statSize, scaleDir, List.find?_cons, hb]
    · have hb' : (e.1 == name) = false := by
        simp_all
      simp only [statSize, scaleDir, List.map_cons, List.find?_cons, hb'] at *
      exact ih

/-- The loop over a directory whose file sizes are scaled by `c` returns
`c` times the original total. -/
theorem sumXmlPairs_scale (c : Nat) (d : Dir) (l : List DirEntry) :
    sumXmlPairs (scaleDir c d) (scaleDir c l) = (sumXmlPairs d l).map (fun n => c * n) := by
  induction l with
  | nil => rfl
  | cons e rest ih =>
    by_cases hx : pySuffix e.1 = ".xml"
    · rw [show scaleDir c (e :: rest) = (e.1, c * e.2) :: scaleDir c rest from rfl,
        sumXmlPairs, sumXmlPairs, if_pos hx, if_pos hx, statSize_scale]
      cases hs : statSize d (pyWithSuffix e.1 ".bin") with
      | none => rfl
      | some n =>
        rw [Option.map_some', ih]
        cases hrest : sumXmlPairs d rest with
        | none => rfl
        | some m =>
          simp only [Option.map_some', Option.some.injEq]
          ring
    · rw [show scaleDir c (e :: rest) = (e.1, c * e.2) :: scaleDir c rest from rfl,
        sumXmlPairs, sumXmlPairs, if_neg hx, if_neg hx]
      exact ih

/-!
## Lemmas about the glob matcher
-/

/-- A dot-free, star-free pattern matches exactly itself. -/
theorem globMatch_lit (lit : List Char) (h : '*' ∉ lit) :
    ∀ s, (globMatch lit s = true) ↔ lit = s := by
  induction lit with
  | nil => intro s; cases s <;> simp [globMatch]
  | cons x ps ih =>
    have hx : ¬ (x = '*') := fun e => h (by simp [e])
    have hps : '*' ∉ ps := fun m => h (by simp [m])
    intro s
    cases s with
    | nil =>
      rw [globMatch, if_neg hx]
      simp
    | cons c cs =>
      rw [globMatch, if_neg hx]
      simp only [Bool.and_eq_true, beq_iff_eq, ih hps cs, List.cons.injEq]

/-- A pattern `*lit` with star-free `lit` matches exactly the strings
with suffix `lit`. -/
theorem globMatch_star (lit : List Char) (h : '*' ∉ lit) :
    ∀ s, (globMatch ('*' :: lit) s = true) ↔ lit <:+ s := by
  intro s
  induction s with
  | nil =>
    rw [globMatch, if_pos rfl]
    rw [globMatch_lit lit h []]
    simp
  | cons c cs ih =>
    rw [globMatch, if_pos rfl]
    rw [Bool.or_eq_true, globMatch_lit lit h (c :: cs), ih, List.suffix_cons_iff]


/-- Inversion of `get_model_size` on an existing directory with a
successful result. -/
theorem get_model_size_inv (d : Dir) (a : ℚ) (h : get_model_size (some d) = some a) :
    ∃ n : Nat, sumXmlPairs d d = some n ∧ a = (n : ℚ) / (1000 * 1000) := by
  have h' : (sumXmlPairs d d).map (fun (s : Nat) => (s : ℚ) / (1000 * 1000)) = some a := h
  obtain ⟨n, hn, ha⟩ := Option.map_eq_some'.mp h'
  exact ⟨n, hn, ha.symm⟩

/-!
## The claims
-/

/-- C1: for every directory in which each descriptor (.xml) file has a
correspondingly-named payload (.bin) file, `get_model_size` returns the
sum, over every descriptor file in the directory, of that descriptor
file's byte size plus its matching payload file's byte size, divided by
1,000,000 (a decimal megabyte, not a binary mebibyte). -/
theorem get_model_size_matched_pairs_total (d : Dir)
    (h : ∀ e ∈ d, pySuffix e.1 = ".xml" → (statSize d (pyWithSuffix e.1 ".bin")).isSome) :
    get_model_size (some d) = some ((xmlPairTotalBytes d : ℚ) / 1000000) := by
  rw [get_model_size_eq_of_sum d _ (sumXmlPairs_eq_total d d h)]
  unfold xmlPairTotalBytes
  norm_num

/-- Witness for C1: a directory with two matched pairs and one unrelated
file. -/
theorem get_model_size_matched_pairs_total_witness :
    (∀ e ∈ ([("a.xml", 10), ("a.bin", 100), ("b.xml", 20), ("b.bin", 200),
        ("notes.txt", 7)] : Dir),
      pySuffix e.1 = ".xml" →
        (statSize [("a.xml", 10), ("a.bin", 100), ("b.xml", 20), ("b.bin", 200),
          ("notes.txt", 7)] (pyWithSuffix e.1 ".bin")).isSome) ∧
    get_model_size (some [("a.xml", 10), ("a.bin", 100), ("b.xml", 20), ("b.bin", 200),
        ("notes.txt", 7)])
      = some ((xmlPairTotalBytes [("a.xml", 10), ("a.bin", 100), ("b.xml", 20),
        ("b.bin", 200), ("notes.txt", 7)] : ℚ) / 1000000) :=
  ⟨by decide, get_model_size_matched_pairs_total _ (by decide)⟩

/-- C2: `get_model_size` fails by propagating an error whenever the given
directory does not exist, or whenever some descriptor (.xml) file in the
directory has no correspondingly-named payload (.bin) file; the error is
not caught or translated. -/
theorem get_model_size_error_propagation :
    get_model_size none = none ∧
    ∀ (d : Dir) (e : DirEntry), e ∈ d → pySuffix e.1 = ".xml" →
      statSize d (pyWithSuffix e.1 ".bin") = none →
      get_model_size (some d) = none :=
  ⟨rfl, fun d e he hx hn =>
    get_model_size_eq_none_of_sum d (sumXmlPairs_eq_none d d ⟨e, he, hx, hn⟩)⟩

/-- Witness for C2: a directory holding a lone descriptor file. -/
theorem get_model_size_error_propagation_witness :
    (("c.xml", 3) ∈ ([("c.xml", 3)] : Dir)) ∧ pySuffix "c.xml" = ".xml" ∧
    statSize [("c.xml", 3)] (pyWithSuffix "c.xml" ".bin") = none ∧
    get_model_size (some [("c.xml", 3)]) = none :=
  ⟨by decide, by decide, by decide,
    get_model_size_error_propagation.2 _ ("c.xml", 3) (by decide) (by decide) (by decide)⟩

/-- Counterexample to C3 as stated: the directory `[("b.xml", 7)]` has a
descriptor entry without its payload counterpart; the claim says such an
entry is ignored, contributing nothing and causing no error, but
`get_model_size` propagates an error (`none`) instead of returning a
total. -/
theorem get_model_size_unmatched_descriptor_cex :
    pySuffix "b.xml" = ".xml" ∧
    statSize [("b.xml", 7)] (pyWithSuffix "b.xml" ".bin") = none ∧
    get_model_size (some [("b.xml", 7)]) = none :=
  ⟨by decide, by decide, get_model_size_eq_none_of_sum _ (by decide)⟩

/-- C3 (amended): only base names present as both a descriptor file and a
binary payload file contribute, their two file sizes being summed; an
entry that is not a descriptor file and is not the payload of any
descriptor in the directory is ignored, contributing nothing to the total
and causing no error; but a descriptor file without its payload
counterpart causes an error rather than being ignored. -/
theorem get_model_size_unmatched_entries :
    (∀ d : Dir, (∀ e ∈ d, pySuffix e.1 = ".xml" →
        (statSize d (pyWithSuffix e.1 ".bin")).isSome) →
      get_model_size (some d) = some ((xmlPairTotalBytes d : ℚ) / 1000000)) ∧
    (∀ (d : Dir) (f : DirEntry), pySuffix f.1 ≠ ".xml" →
      (∀ e ∈ d, pySuffix e.1 = ".xml" → pyWithSuffix e.1 ".bin" ≠ f.1) →
      get_model_size (some (f :: d)) = get_model_size (some d)) ∧
    (∀ (d : Dir) (e : DirEntry), e ∈ d → pySuffix e.1 = ".xml" →
      statSize d (pyWithSuffix e.1 ".bin") = none →
      get_model_size (some d) = none) := by
  refine ⟨?_, ?_, ?_⟩
  · intro d h
    rw [get_model_size_eq_of_sum d _ (sumXmlPairs_eq_total d d h)]
    unfold xmlPairTotalBytes
    norm_num
  · intro d f hx h
    exact get_model_size_insert d f hx h
  · intro d e he hx hn
    exact get_model_size_eq_none_of_sum d (sumXmlPairs_eq_none d d ⟨e, he, hx, hn⟩)

/-- Witness for C3 (amended): a text file prepended to a matched pair is
ignored. -/
theorem get_model_size_unmatched_entries_witness :
    (pySuffix "readme.txt" ≠ ".xml") ∧
    get_model_size (some [("readme.txt", 4), ("m.xml", 2), ("m.bin", 8)])
      = get_model_size (some [("m.xml", 2), ("m.bin", 8)]) :=
  ⟨by decide, get_model_size_unmatched_entries.2.1 _ ("readme.txt", 4)
    (by decide) (by decide)⟩

/-- C4: given the two totals computed for an unquantized and a quantized
artifact directory, the reported size-reduction factor equals the first
total divided by the second; in particular, totals of 1,028.25 MB and
260.94 MB yield a reported (two-decimal-place) value of 3.94. -/
theorem size_decrease_ratio_report :
    (∀ a b : ℚ, size_decrease a b = a / b) ∧
    format2f (size_decrease (102825 / 100) (26094 / 100)) = 394 / 100 :=
  ⟨fun _ _ => rfl, by norm_num [size_decrease, format2f]⟩

/-- C5: for every pair of directories and every positive constant, scaling
the byte size of every file in both directories by the constant leaves the
reported size-reduction factor (unquantized total divided by quantized
total) unchanged. -/
theorem size_decrease_scale_invariant (c : Nat) (d1 d2 : Dir) (a b : ℚ)
    (hc : 0 < c)
    (h1 : get_model_size (some d1) = some a)
    (h2 : get_model_size (some d2) = some b) :
    ∃ a' b', get_model_size (some (scaleDir c d1)) = some a' ∧
      get_model_size (some (scaleDir c d2)) = some b' ∧
      size_decrease a' b' = size_decrease a b := by
  obtain ⟨n1, hn1, rfl⟩ := get_model_size_inv d1 a h1
  obtain ⟨n2, hn2, rfl⟩ := get_model_size_inv d2 b h2
  have hs1 : sumXmlPairs (scaleDir c d1) (scaleDir c d1) = some (c * n1) := by
    rw [sumXmlPairs_scale, hn1]; rfl
  have hs2 : sumXmlPairs (scaleDir c d2) (scaleDir c d2) = some (c * n2) := by
    rw [sumXmlPairs_scale, hn2]; rfl
  refine ⟨((c * n1 : Nat) : ℚ) / (1000 * 1000), ((c * n2 : Nat) : ℚ) / (1000 * 1000),
    get_model_size_eq_of_sum _ _ hs1, get_model_size_eq_of_sum _ _ hs2, ?_⟩
  have hc' : ((c : ℚ)) ≠ 0 := by
    exact_mod_cast Nat.pos_iff_ne_zero.mp hc
  unfold size_decrease
  push_cast
  rw [div_div_div_comm ((c : ℚ) * n1) ((1000 : ℚ) * 1000) ((c : ℚ) * n2) ((1000 : ℚ) * 1000),
    div_div_div_comm ((n1 : ℚ)) ((1000 : ℚ) * 1000) ((n2 : ℚ)) ((1000 : ℚ) * 1000),
    mul_div_mul_left _ _ hc']

/-- Witness for C5: scaling two one-pair directories by 2 preserves the
factor. -/
theorem size_decrease_scale_invariant_witness :
    (0 < 2) ∧
    (∃ a' b', get_model_size (some (scaleDir 2 [("w.xml", 1), ("w.bin", 3)])) = some a' ∧
      get_model_size (some (scaleDir 2 [("w.xml", 1), ("w.bin", 1)])) = some b' ∧
      size_decrease a' b' = size_decrease ((4 : ℚ) / 1000000) ((2 : ℚ) / 1000000)) :=
  ⟨by decide, size_decrease_scale_invariant 2 _ _ _ _ (by decide)
    (by rw [get_model_size_eq_of_sum _ 4 (by decide)]; norm_num)
    (by rw [get_model_size_eq_of_sum _ 2 (by decide)]; norm_num)⟩

/-- Counterexample to C6 as stated: the directory `[("a.xml", 5)]`
contains zero matched descriptor/payload pairs, yet `get_model_size` does
not yield a total of zero — it propagates a missing-payload error. -/
theorem get_model_size_zero_matched_cex :
    matchedPairCount [("a.xml", 5)] = 0 ∧
    get_model_size (some [("a.xml", 5)]) = none ∧
    get_model_size (some [("a.xml", 5)]) ≠ some 0 := by
  refine ⟨by decide, get_model_size_eq_none_of_sum _ (by decide), ?_⟩
  rw [get_model_size_eq_none_of_sum _ (by decide)]
  exact fun h => Option.noConfusion h

/-- C6 (amended): for every directory containing no descriptor (.xml)
file at all — in particular, zero matched descriptor/payload pairs —
`get_model_size` yields a total of zero. -/
theorem get_model_size_no_descriptors_zero (d : Dir)
    (h : ∀ e ∈ d, pySuffix e.1 ≠ ".xml") :
    get_model_size (some d) = some 0 := by
  rw [get_model_size_eq_of_sum d 0 (sumXmlPairs_no_xml d d h)]
  norm_num

/-- Witness for C6 (amended): a directory with a payload file and a
markdown file only. -/
theorem get_model_size_no_descriptors_zero_witness :
    (∀ e ∈ ([("weights.bin", 9), ("README.md", 11)] : Dir), pySuffix e.1 ≠ ".xml") ∧
    get_model_size (some [("weights.bin", 9), ("README.md", 11)]) = some 0 :=
  ⟨by decide, get_model_size_no_descriptors_zero _ (by decide)⟩

/-- C7: a directory containing exactly one descriptor file of 2,000 bytes
and one correspondingly-named payload file of 1,028,248,000 bytes yields a
total of exactly 1,028.25 MB (so also within rounding: its two-decimal
rendering is itself). -/
theorem get_model_size_concrete_total :
    get_model_size (some [("openvino_model.xml", 2000), ("openvino_model.bin", 1028248000)])
      = some (102825 / 100) ∧
    format2f (102825 / 100) = 102825 / 100 := by
  constructor
  · rw [get_model_size_eq_of_sum _ 1028250000 (by decide)]
    norm_num
  · norm_num [format2f]

/-- C8: constructing a pipeline quantization configuration from a mapping
of three named components to sub-configurations (plus a dataset identifier
and a sample count) is a pure construction: the resulting configuration's
mapping holds exactly the three entries supplied, unchanged; in
particular the notebook's `ppl_q` holds exactly its three entries. -/
theorem ppl_q_quantization_configs_exact :
    (∀ (e1 e2 e3 : String × OVQuantizationConfigBase) (ds : String) (ns : Nat),
      (OVPipelineQuantizationConfig.mk [e1, e2, e3] ds ns).quantization_configs
        = [e1, e2, e3]) ∧
    ppl_q.quantization_configs =
      [("lm_model", OVQuantizationConfigBase.OVQuantizationConfig 8 none none),
       ("text_embeddings_model", OVQuantizationConfigBase.OVWeightQuantizationConfig 8 none),
       ("vision_embeddings_model", OVQuantizationConfigBase.OVWeightQuantizationConfig 8 none)] :=
  ⟨fun _ _ _ _ _ => rfl, rfl⟩

/-- C9: the documentation-build workflow's version parameter is derived
from the declared version string by the `Set environment variables` step
as follows: it is `"main"` when the string ends with `".dev0"`, and `"v"`
followed by the declared version string otherwise. -/
theorem docs_version_param_spec :
    (∀ version : String, setVersionEnv version =
      if ".dev0".data <:+ version.data then "main" else "v" ++ version) ∧
    setVersionEnv "1.26.0.dev0" = "main" ∧
    setVersionEnv "1.26.1" = "v1.26.1" := by
  refine ⟨?_, by simp [setVersionEnv, globMatch], by simp [setVersionEnv, globMatch]⟩
  intro v
  unfold setVersionEnv
  have hstar : "*.dev0".data = '*' :: ".dev0".data := rfl
  rw [hstar]
  by_cases hs : ".dev0".data <:+ v.data
  · rw [if_pos ((globMatch_star _ (by decide) _).mpr hs), if_pos hs]
  · rw [if_neg (fun hm => hs ((globMatch_star _ (by decide) _).mp hm)), if_neg hs]

/-- C10: `get_model_size` sums sizes only through descriptor (.xml)
files: a payload (.bin) file whose base name has no same-named descriptor
file in the directory, and any file whose extension is neither the
descriptor nor the payload extension, contribute nothing to the returned
total and raise no error. -/
theorem get_model_size_ignores_non_descriptors (d : Dir) (f : DirEntry)
    (hx : pySuffix f.1 ≠ ".xml")
    (hbin : pySuffix f.1 = ".bin" → pyWithSuffix f.1 ".xml" ∉ d.map Prod.fst) :
    get_model_size (some (f :: d)) = get_model_size (some d) := by
  refine get_model_size_insert d f hx (fun e he hxml heq => ?_)
  by_cases hb : pySuffix f.1 = ".bin"
  · have hname : pyWithSuffix f.1 ".xml" = e.1 := pySuffix_target_inv e.1 f.1 hxml heq
    refine hbin hb ?_
    rw [hname]
    exact List.mem_map_of_mem Prod.fst he
  · exact hb (heq ▸ pySuffix_target e.1 hxml)

/-- Witness for C10: an unrelated payload file prepended to a matched
pair is ignored. -/
theorem get_model_size_ignores_non_descriptors_witness :
    (pySuffix "b.bin" ≠ ".xml") ∧
    (pySuffix "b.bin" = ".bin" →
      pyWithSuffix "b.bin" ".xml" ∉ ([("a.xml", 1), ("a.bin", 2)] : Dir).map Prod.fst) ∧
    get_model_size (some [("b.bin", 5), ("a.xml", 1), ("a.bin", 2)])
      = get_model_size (some [("a.xml", 1), ("a.bin", 2)]) :=
  ⟨by decide, by decide,
    get_model_size_ignores_non_descriptors _ _ (by decide) (by decide)⟩
